import Mathlib

set_option maxRecDepth 100000

/- Shallow embedding of the touch_event crate: the per-device touch state
   tracker (src/touch_group.rs), the slide/click classifier (src/analyze.rs),
   the decoder flush (src/read.rs) and the listener queries (src/lib.rs).

   Modelling choices:
   - the two HashMaps of TouchGroup are association lists; HashMap::insert
     is modelled as remove-then-prepend, HashMap::remove as removal of the
     (unique) binding, HashMap::get_mut plus in-place mutation as updateKey;
   - i32 event values are carried as Int, and the i32 distance arithmetic
     of on_slide (sub, abs, pow, add in analyze.rs lines 41-44) is modelled
     with explicit two's-complement wrapping (wrap32), matching a release
     build; when the wrapped sum of squares is negative the f64 path takes
     sqrt of a negative number, giving NaN, and the NaN round() as usize
     cast saturates to 0; when it is non-negative the f64 computation
     (at most 2^31 - 1 < 2^38, inside the double-rounding-exact range) is
     exactly the integer rounded square root roundSqrt;
   - the device Status Cell (Arc of an atomic status) plus its capacity-one
     notification channel is a StatusCell record; try_send on a channel that
     already holds an unconsumed notification drops the send. -/

/-- TouchStatus from src/lib.rs. -/
inductive TouchStatus where
  | Slide
  | Click
  | None
  deriving DecidableEq, Repr

/-- TouchPos from src/touch_group.rs: current and previous (x, y) sample,
    with independently optional components. -/
structure TouchPos where
  cur_pos : Option Int × Option Int
  prev_pos : Option Int × Option Int
  deriving DecidableEq, Repr

/-- TouchPos::new - both samples start fully unset. -/
def TouchPos.new : TouchPos :=
  ⟨(none, none), (none, none)⟩

/-- TouchPos::x - shift the whole cur_pos into prev_pos, then set the x
    component of cur_pos. -/
def TouchPos.x (p : TouchPos) (pos_x : Int) : TouchPos :=
  { cur_pos := (some pos_x, p.cur_pos.2), prev_pos := p.cur_pos }

/-- TouchPos::y - shift the whole cur_pos into prev_pos, then set the y
    component of cur_pos. -/
def TouchPos.y (p : TouchPos) (pos_y : Int) : TouchPos :=
  { cur_pos := (p.cur_pos.1, some pos_y), prev_pos := p.cur_pos }

/-- HashMap::remove on an association list with unique keys. -/
def removeKey {α β : Type} [BEq α] (k : α) : List (α × β) → List (α × β)
  | [] => []
  | e :: rest => if e.1 == k then rest else e :: removeKey k rest

/-- HashMap::insert, replacing any previous binding of the key. -/
def insertKey {α β : Type} [BEq α] (k : α) (v : β) (l : List (α × β)) :
    List (α × β) :=
  (k, v) :: removeKey k l

/-- HashMap::contains_key. -/
def containsKey {α β : Type} [BEq α] (k : α) (l : List (α × β)) : Bool :=
  l.any (fun e => e.1 == k)

/-- HashMap::get_mut followed by an in-place mutation of the value. -/
def updateKey {α β : Type} [BEq α] (k : α) (f : β → β) :
    List (α × β) → List (α × β)
  | [] => []
  | e :: rest => if e.1 == k then (e.1, f e.2) :: rest else e :: updateKey k f rest

/-- keys().max().copied() from TouchGroup::remove_id. -/
def maxKey {β : Type} : List (Int × β) → Option Int
  | [] => none
  | e :: rest =>
    match maxKey rest with
    | none => some e.1
    | some m => some (max e.1 m)

/-- TouchGroup from src/touch_group.rs. -/
structure TouchGroup where
  id_slot : List (Int × Option Int)
  slot_pos : List (Option Int × TouchPos)
  deriving DecidableEq, Repr

/-- TouchGroup::new. -/
def TouchGroup.new : TouchGroup :=
  ⟨[], []⟩

/-- TouchGroup::remove_id from src/touch_group.rs: drop the largest tracking
    id and the tracker of its slot; no-op when id_slot is empty. -/
def TouchGroup.remove_id (g : TouchGroup) : TouchGroup :=
  match maxKey g.id_slot with
  | none => g
  | some id =>
    let g1 :=
      match g.id_slot.lookup id with
      | some slot => { g with slot_pos := removeKey slot g.slot_pos }
      | none => g
    { g1 with id_slot := removeKey id g1.id_slot }

/-- Kernel-reducible integer square root (equal to Nat.sqrt, see
    isqrt_eq_sqrt below). -/
def isqrt : Nat → Nat
  | 0 => 0
  | n + 1 =>
    let s := isqrt n
    if (s + 1) * (s + 1) ≤ n + 1 then s + 1 else s

/-- Exact value of the f64 computation in on_slide: round(sqrt n) for a
    natural n. Rounds up exactly when n exceeds s * (s + 1) for s the floor
    square root (sqrt n is never exactly halfway between two integers). -/
def roundSqrt (n : Nat) : Nat :=
  let s := isqrt n
  if s * (s + 1) < n then s + 1 else s

/-- Two's-complement wrap into the i32 range, the release-build semantics
    of overflowing i32 arithmetic. -/
def wrap32 (z : Int) : Int :=
  (z + 2 ^ 31) % 2 ^ 32 - 2 ^ 31

/-- i32::abs in a release build: the absolute value wrapped back into i32
    (so the absolute value of the minimum i32 is itself). -/
def i32abs (z : Int) : Int :=
  wrap32 |z|

/-- on_slide from src/analyze.rs: false unless both samples are fully
    populated, otherwise compare the f64-rounded Euclidean length of the
    i32 difference vector against min_pixel. Each i32 operation wraps
    (release build); a negative wrapped sum of squares sends the f64 sqrt
    to NaN, whose round() as usize cast yields 0. -/
def on_slide (pos : TouchPos) (min_pixel : Nat) : Bool :=
  match pos.cur_pos, pos.prev_pos with
  | (some cur_x, some cur_y), (some prev_x, some prev_y) =>
    let len_x := i32abs (wrap32 (cur_x - prev_x))
    let len_y := i32abs (wrap32 (cur_y - prev_y))
    let len2 := wrap32 (wrap32 (len_x * len_x) + wrap32 (len_y * len_y))
    if len2 < 0 then decide (min_pixel ≤ 0)
    else decide (min_pixel ≤ roundSqrt len2.toNat)
  | _, _ => false

/-- The per-device Status Cell (the atomic status of src/lib.rs) together
    with its capacity-one notification channel: chan is the number of queued,
    unconsumed notifications, sends counts the try_send calls made. -/
structure StatusCell where
  status : TouchStatus
  chan : Nat
  sends : Nat
  deriving DecidableEq, Repr

/-- SyncSender::try_send on the capacity-one channel: the send is dropped
    when a notification is already queued. -/
def trySend (c : StatusCell) : StatusCell :=
  { c with chan := if c.chan < 1 then c.chan + 1 else c.chan,
           sends := c.sends + 1 }

/-- The pure classification computed at the top of analyze
    (src/analyze.rs lines 18-24). -/
def classify (group : TouchGroup) (min_pixel : Nat) : TouchStatus :=
  if group.slot_pos.any (fun e => on_slide e.2 min_pixel) then .Slide
  else if group.slot_pos.isEmpty then .None
  else .Click

/-- analyze from src/analyze.rs: store the new status and try_send a
    notification only when the status changed. -/
def analyze (group : TouchGroup) (c : StatusCell) (min_pixel : Nat) :
    StatusCell :=
  if c.status ≠ classify group min_pixel then
    trySend { c with status := classify group min_pixel }
  else c

/-- The two absolute axes buffered by the decoder loop
    (ABS_MT_POSITION_X and ABS_MT_POSITION_Y). -/
inductive AbsAxis where
  | X
  | Y
  deriving DecidableEq, Repr

/-- Decoder-loop state from daemon_thread (src/read.rs): the touch group,
    target = (pending tracking id, pending slot), the buffered axis events
    (cache) and the device Status Cell. -/
structure Decoder where
  group : TouchGroup
  target : Option Int × Option Int
  cache : List (AbsAxis × Int)
  cell : StatusCell
  deriving DecidableEq, Repr

/-- Result of the per-event loop of update_group: the mutated group and
    cell, the number of analyze calls made, and whether the loop abandoned
    the flush on a missing tracker. -/
structure FlushResult where
  group : TouchGroup
  cell : StatusCell
  runs : Nat
  abandoned : Bool
  deriving DecidableEq, Repr

/-- The per-event loop at the end of update_group (src/read.rs lines
    110-123): analyze before each buffered event, then look the target slot
    up; a missing tracker abandons the flush, otherwise the axis write is
    applied through get_mut. -/
def processEvents (min_pixel : Nat) (slot : Option Int) :
    List (AbsAxis × Int) → TouchGroup → StatusCell → FlushResult
  | [], g, c => ⟨g, c, 0, false⟩
  | (t, v) :: rest, g, c =>
    let c1 := analyze g c min_pixel
    match g.slot_pos.lookup slot with
    | none => ⟨g, c1, 1, true⟩
    | some _ =>
      let f : TouchPos → TouchPos := fun p =>
        match t with
        | .X => p.x v
        | .Y => p.y v
      let r := processEvents min_pixel slot rest
        { g with slot_pos := updateKey slot f g.slot_pos } c1
      ⟨r.group, r.cell, r.runs + 1, r.abandoned⟩

/-- The tail of update_group shared by the non-release paths: the pre-loop
    analyze (src/read.rs line 108), the event loop, then - only when the
    loop was not abandoned - clearing the buffer; the target is reset in
    both cases. -/
def flushTail (s : Decoder) (g : TouchGroup) (min_pixel : Nat) :
    Decoder × Nat :=
  let c1 := analyze g s.cell min_pixel
  let r := processEvents min_pixel s.target.2 s.cache g c1
  if r.abandoned then
    (⟨r.group, (none, none), s.cache, r.cell⟩, 1 + r.runs)
  else
    (⟨r.group, (none, none), [], r.cell⟩, 1 + r.runs)

/-- update_group from src/read.rs. The second component counts how many
    times analyze ran during this flush. -/
def update_group (s : Decoder) (min_pixel : Nat) : Decoder × Nat :=
  if s.cache.isEmpty && s.target.1.isNone then (s, 0)
  else
    match s.target.1 with
    | some id =>
      if id = -1 then
        let g := s.group.remove_id
        (⟨g, (none, s.target.2), s.cache, analyze g s.cell min_pixel⟩, 1)
      else
        let g :=
          if containsKey id s.group.id_slot then s.group
          else ⟨(id, s.target.2) :: s.group.id_slot,
                insertKey s.target.2 TouchPos.new s.group.slot_pos⟩
        flushTail s g min_pixel
    | none => flushTail s s.group min_pixel

/-- The error type of Receiver::recv_timeout. -/
inductive RecvTimeoutError where
  | timeout
  | disconnected
  deriving DecidableEq, Repr

/-- wait_timeout from src/lib.rs: map_err sends either recv_timeout failure
    to the one static message. -/
def wait_timeout (r : Except RecvTimeoutError Unit) : Except String Unit :=
  match r with
  | .ok u => .ok u
  | .error _ => .error "Monitor threads had paniced"

/-- TouchListener::status from src/lib.rs, over the list of per-device
    status values read from the status map. -/
def status (cells : List TouchStatus) : Bool × Bool × Bool :=
  (cells.any (fun s => s == TouchStatus.Slide),
   cells.any (fun s => s == TouchStatus.Click),
   cells.any (fun s => s == TouchStatus.None))

/-- One axis write to a position tracker. -/
inductive AxisWrite where
  | x (v : Int)
  | y (v : Int)
  deriving DecidableEq, Repr

/-- Apply one axis write. -/
def applyWrite (p : TouchPos) : AxisWrite → TouchPos
  | .x v => p.x v
  | .y v => p.y v

/-- Apply a sequence of axis writes in order. -/
def applyWrites (p : TouchPos) (ws : List AxisWrite) : TouchPos :=
  ws.foldl applyWrite p

/-- The slide condition as the spec words it: both samples fully populated
    and the Euclidean distance between them, rounded to the nearest integer,
    at least the motion threshold. -/
def slideSpec (p : TouchPos) (min_pixel : Nat) : Prop :=
  ∃ cx cy px py : Int,
    p.cur_pos = (some cx, some cy) ∧ p.prev_pos = (some px, some py) ∧
    (min_pixel : ℤ) ≤
      round (Real.sqrt (((cx - px : ℤ) : ℝ) ^ 2 + ((cy - py : ℤ) : ℝ) ^ 2))

/-- A fully populated tracker whose squared i32 distance stays inside i32,
    so none of the wrapping operations in on_slide fires; vacuous for
    incompletely populated trackers, where on_slide returns false before
    any arithmetic. -/
def no_overflow (p : TouchPos) : Prop :=
  match p.cur_pos, p.prev_pos with
  | (some cx, some cy), (some px, some py) =>
    (cx - px) ^ 2 + (cy - py) ^ 2 ≤ 2 ^ 31 - 1
  | _, _ => True

/-- Every flushTail run calls analyze at least once. -/
theorem flushTail_runs_ne_zero (s : Decoder) (g : TouchGroup) (m : Nat) :
    (flushTail s g m).2 ≠ 0 := by
  simp only [flushTail]
  split <;> simp

/-- C6: each axis write first copies the whole cur_pos into prev_pos, then
    overwrites only the named axis of cur_pos, leaving the other component
    unchanged; hence after any write in any sequence of writes, prev_pos
    equals the cur_pos from immediately before that write. -/
theorem touchpos_shift (p : TouchPos) (v : Int) :
    ((p.x v).prev_pos = p.cur_pos ∧ (p.x v).cur_pos = (some v, p.cur_pos.2)) ∧
    ((p.y v).prev_pos = p.cur_pos ∧ (p.y v).cur_pos = (p.cur_pos.1, some v)) ∧
    (∀ ws : List AxisWrite, ∀ w : AxisWrite,
      (applyWrites p (ws ++ [w])).prev_pos = (applyWrites p ws).cur_pos) := by
  refine ⟨⟨rfl, rfl⟩, ⟨rfl, rfl⟩, ?_⟩
  intro ws w
  simp only [applyWrites, List.foldl_append, List.foldl_cons, List.foldl_nil]
  cases w <;> rfl

/-- C10: a freshly created tracker has all four components unset, and the
    slide test needs all of them; any sequence of at most two axis writes
    leaves at least one component of prev_pos (or cur_pos) unset, so the
    slide test is false whatever the values and the threshold. -/
theorem fresh_short_sequence_not_slide (ws : List AxisWrite)
    (h : ws.length ≤ 2) (m : Nat) :
    on_slide (applyWrites TouchPos.new ws) m = false := by
  match ws with
  | [] => rfl
  | [w] => cases w <;> rfl
  | [w1, w2] => cases w1 <;> cases w2 <;> rfl
  | w1 :: w2 :: w3 :: rest => simp [List.length_cons] at h

/-- C10 witness: a first report carrying one x and one y write stays
    below the slide test even at threshold zero. -/
theorem fresh_short_sequence_not_slide_witness :
    on_slide (applyWrites TouchPos.new [AxisWrite.x 100, AxisWrite.y 200]) 0
      = false :=
  fresh_short_sequence_not_slide [AxisWrite.x 100, AxisWrite.y 200] (by decide) 0

/-- C9: status() is three independent any-scans over the per-device status
    values - some device slides, some device clicks, some device is idle -
    and two devices in states Slide and None give (true, false, true). -/
theorem status_scan (cells : List TouchStatus) :
    ((status cells).1 = true ↔ TouchStatus.Slide ∈ cells) ∧
    ((status cells).2.1 = true ↔ TouchStatus.Click ∈ cells) ∧
    ((status cells).2.2 = true ↔ TouchStatus.None ∈ cells) ∧
    status [TouchStatus.Slide, TouchStatus.None] = (true, false, true) := by
  refine ⟨?_, ?_, ?_, by decide⟩ <;>
    simp [status, List.any_eq_true, beq_iff_eq]

/-- C4 (amended): wait_timeout fails on a timeout and on disconnection, but
    both recv_timeout failures are mapped to the very same error value, so
    the two kinds cannot be told apart from the returned error. -/
theorem wait_timeout_uniform_error (e : RecvTimeoutError) :
    wait_timeout (.error e) = .error "Monitor threads had paniced" ∧
    wait_timeout (.error .timeout) = wait_timeout (.error .disconnected) := by
  cases e <;> exact ⟨rfl, rfl⟩

/-- C4 counterexample: the timeout failure and the disconnection failure
    produce identical results, refuting that a caller can distinguish them
    from the returned error. -/
theorem wait_timeout_same_error :
    wait_timeout (Except.error RecvTimeoutError.timeout)
      = wait_timeout (Except.error RecvTimeoutError.disconnected) ∧
    wait_timeout (Except.error RecvTimeoutError.timeout)
      = Except.error "Monitor threads had paniced" :=
  ⟨rfl, rfl⟩

/-- C8: analyze publishes and notifies only on an actual status change;
    starting from a cell holding a different status, the first run stores
    and sends once, and the second run on the same snapshot and threshold
    changes nothing, so the two runs produce exactly one send in total (and
    exactly one queued notification when the channel starts empty). -/
theorem analyze_publish_on_change (g : TouchGroup) (c : StatusCell) (m : Nat)
    (h : c.status ≠ classify g m) :
    (∀ c2 : StatusCell, c2.status = classify g m → analyze g c2 m = c2) ∧
    analyze g (analyze g c m) m = analyze g c m ∧
    (analyze g (analyze g c m) m).sends = c.sends + 1 ∧
    (c.chan = 0 → (analyze g (analyze g c m) m).chan = 1) := by
  have hc : analyze g c m = trySend { c with status := classify g m } := by
    simp [analyze, h]
  have hst : (analyze g c m).status = classify g m := by
    rw [hc]; rfl
  have hfix : analyze g (analyze g c m) m = analyze g c m := by
    generalize hX : analyze g c m = X at hst
    simp [analyze, hst]
  refine ⟨?_, hfix, ?_, ?_⟩
  · intro c2 h2
    simp [analyze, h2]
  · rw [hfix, hc]; rfl
  · intro h0
    rw [hfix, hc]
    simp [trySend, h0]

/-- C8 witness: an empty group classifies as None; starting from Click with
    an empty channel, two analyze runs fix the cell and queue one
    notification with one send. -/
theorem analyze_publish_on_change_witness :
    analyze TouchGroup.new (analyze TouchGroup.new ⟨.Click, 0, 0⟩ 5) 5
      = analyze TouchGroup.new ⟨.Click, 0, 0⟩ 5 ∧
    (analyze TouchGroup.new (analyze TouchGroup.new ⟨.Click, 0, 0⟩ 5) 5).sends
      = 1 ∧
    (analyze TouchGroup.new (analyze TouchGroup.new ⟨.Click, 0, 0⟩ 5) 5).chan
      = 1 :=
  ⟨(analyze_publish_on_change TouchGroup.new ⟨.Click, 0, 0⟩ 5 (by decide)).2.1,
   (analyze_publish_on_change TouchGroup.new ⟨.Click, 0, 0⟩ 5 (by decide)).2.2.1,
   (analyze_publish_on_change TouchGroup.new ⟨.Click, 0, 0⟩ 5 (by decide)).2.2.2
     rfl⟩

/-- C2 (amended): a flush whose pending id is the release sentinel -1 calls
    remove_id on the group, clears the pending id, runs the classifier once
    and returns - but the buffered axis events are NOT discarded: the flush
    returns with the pending buffer unchanged, so the buffered values are
    still eligible to be applied by a later flush. -/
theorem update_group_release (s : Decoder) (m : Nat)
    (h : s.target.1 = some (-1)) :
    update_group s m =
      (⟨s.group.remove_id, (none, s.target.2), s.cache,
        analyze s.group.remove_id s.cell m⟩, 1) := by
  simp [update_group, h]

/-- C2 witness: a concrete release flush with one buffered axis event. -/
theorem update_group_release_witness :
    update_group
        ⟨TouchGroup.new, (some (-1), some 0), [(AbsAxis.X, 5)],
          ⟨.Click, 0, 0⟩⟩ 10
      = (⟨TouchGroup.new.remove_id, (none, some 0), [(AbsAxis.X, 5)],
          analyze TouchGroup.new.remove_id ⟨.Click, 0, 0⟩ 10⟩, 1) :=
  update_group_release _ 10 rfl

/-- C2 counterexample: after the release flush path the pending axis-event
    buffer is NOT empty - the buffered event survives the flush. -/
theorem update_group_release_keeps_cache :
    (update_group
        ⟨TouchGroup.new, (some (-1), some 0), [(AbsAxis.X, 5)],
          ⟨.Click, 0, 0⟩⟩ 10).1.cache ≠ [] := by
  decide

/-- C3 (amended): when a buffered axis event targets a slot with no tracker
    in the group, the flush is abandoned: the pending id and slot are both
    cleared, the group is left unchanged, the classifier has run twice
    (once before the loop, once before the failing event), nothing is
    escalated - but the remaining buffered events are NOT discarded: the
    pending buffer is returned unchanged. The hypothesis covers every state
    whose flush can reach the abandon branch: either no id change is
    pending, or the pending id is already bound and not the release
    sentinel (a pending unbound id makes the flush bind a tracker for the
    current slot first, and the release sentinel returns before the loop,
    so the lookup cannot fail in those flushes; and since the target slot
    is fixed for the whole loop and axis writes preserve the key set, the
    lookup can only fail at the first buffered event). -/
theorem update_group_abandon (s : Decoder) (m : Nat)
    (h1 : s.target.1 = none ∨
      ∃ id, s.target.1 = some id ∧ id ≠ -1 ∧
        containsKey id s.group.id_slot = true)
    (h2 : s.cache ≠ [])
    (h3 : s.group.slot_pos.lookup s.target.2 = none) :
    update_group s m =
      (⟨s.group, (none, none), s.cache,
        analyze s.group (analyze s.group s.cell m) m⟩, 2) := by
  obtain ⟨e, rest, hc⟩ : ∃ e rest, s.cache = e :: rest := by
    cases hcc : s.cache with
    | nil => exact absurd hcc h2
    | cons e rest => exact ⟨e, rest, rfl⟩
  obtain ⟨t, v⟩ := e
  rcases h1 with h1 | ⟨id, hid, hne, hbound⟩
  · simp [update_group, h1, hc, flushTail, processEvents, h3]
  · simp [update_group, hid, hne, hbound, hc, flushTail, processEvents, h3]

/-- C3 witness: tracking id 7 is pending and already bound to slot 1, but
    the buffered axis event targets the currently selected slot 0, which
    has no tracker; the flush abandons, clears the pending id and slot, and
    keeps the buffer. -/
theorem update_group_abandon_witness :
    update_group
        ⟨⟨[(7, some 1)], [(some 1, TouchPos.new)]⟩, (some 7, some 0),
          [(AbsAxis.X, 5)], ⟨.None, 0, 0⟩⟩ 10
      = (⟨⟨[(7, some 1)], [(some 1, TouchPos.new)]⟩, (none, none),
          [(AbsAxis.X, 5)],
          analyze ⟨[(7, some 1)], [(some 1, TouchPos.new)]⟩
            (analyze ⟨[(7, some 1)], [(some 1, TouchPos.new)]⟩
              ⟨.None, 0, 0⟩ 10) 10⟩, 2) :=
  update_group_abandon _ 10 (Or.inr ⟨7, rfl, by decide, by decide⟩)
    (by decide) (by decide)

/-- C3 counterexample: after the abandoned flush the pending buffer is NOT
    empty - the buffered axis event survives. -/
theorem update_group_abandon_keeps_cache :
    (update_group
        ⟨TouchGroup.new, (none, some 0), [(AbsAxis.X, 5)],
          ⟨.None, 0, 0⟩⟩ 10).1.cache ≠ [] := by
  decide

/-- C5 (amended): a flush leaves the whole decoder state untouched and runs
    the classifier zero times exactly when the pending buffer is empty and
    no id change is pending; whenever the buffer is non-empty or an id is
    pending, the classifier runs at least once. A pure slot-select change
    with no id and no axis events falls in the no-op case, so the
    classifier does NOT run there. -/
theorem update_group_noop_iff (s : Decoder) (m : Nat) :
    (s.cache = [] ∧ s.target.1 = none → update_group s m = (s, 0)) ∧
    ((update_group s m).2 = 0 ↔ s.cache = [] ∧ s.target.1 = none) := by
  by_cases hg : (s.cache.isEmpty && s.target.1.isNone) = true
  · have hg2 := hg
    simp only [Bool.and_eq_true, List.isEmpty_iff,
      Option.isNone_iff_eq_none] at hg2
    obtain ⟨hc, ht⟩ := hg2
    have heq : update_group s m = (s, 0) := by simp [update_group, hg]
    exact ⟨fun _ => heq, by simp [heq, hc, ht]⟩
  · have hne : ¬(s.cache = [] ∧ s.target.1 = none) := by
      rintro ⟨hc, ht⟩
      exact hg (by simp [hc, ht])
    have hpos : (update_group s m).2 ≠ 0 := by
      simp only [update_group, hg, if_false, Bool.false_eq_true]
      cases hts : s.target.1 with
      | none => exact flushTail_runs_ne_zero s s.group m
      | some id =>
        by_cases hid : id = -1
        · simp [hid]
        · simp only [hid, if_false]
          exact flushTail_runs_ne_zero s _ m
    exact ⟨fun hand => absurd hand hne, iff_of_false hpos hne⟩

/-- C5 witness: an empty buffer with no pending id change flushes to the
    identical state with zero classifier runs. -/
theorem update_group_noop_iff_witness :
    update_group ⟨TouchGroup.new, (none, none), [], ⟨.None, 0, 0⟩⟩ 10
      = (⟨TouchGroup.new, (none, none), [], ⟨.None, 0, 0⟩⟩, 0) :=
  (update_group_noop_iff ⟨TouchGroup.new, (none, none), [],
    ⟨.None, 0, 0⟩⟩ 10).1 ⟨rfl, rfl⟩

/-- C5 counterexample: a pure slot-select change with no pending id and no
    buffered axis events is a complete no-op - the classifier runs zero
    times, not at least once. -/
theorem update_group_pure_slot_select_noop :
    update_group ⟨TouchGroup.new, (none, some 0), [], ⟨.None, 0, 0⟩⟩ 10
      = (⟨TouchGroup.new, (none, some 0), [], ⟨.None, 0, 0⟩⟩, 0) := by
  decide

/-- containsKey agrees with membership among the keys. -/
theorem containsKey_iff_mem {α β : Type} [BEq α] [LawfulBEq α]
    {k : α} {l : List (α × β)} :
    containsKey k l = true ↔ k ∈ l.map Prod.fst := by
  simp [containsKey, List.any_eq_true, List.mem_map, beq_iff_eq]

/-- maxKey of a non-empty association list is a greatest key; of an empty
    one it is none. -/
theorem maxKey_spec {β : Type} (l : List (Int × β)) :
    (l = [] ∧ maxKey l = none) ∨
    (∃ m, maxKey l = some m ∧ m ∈ l.map Prod.fst ∧
      ∀ k ∈ l.map Prod.fst, k ≤ m) := by
  induction l with
  | nil => exact Or.inl ⟨rfl, rfl⟩
  | cons e l ih =>
    right
    rcases ih with ⟨hnil, hmk⟩ | ⟨m, hmk, hmem, hge⟩
    · subst hnil
      exact ⟨e.1, rfl, by simp, by simp⟩
    · refine ⟨max e.1 m, ?_, ?_, ?_⟩
      · simp [maxKey, hmk]
      · rcases max_choice e.1 m with hc | hc <;> rw [hc]
        · simp
        · simp only [List.map_cons, List.mem_cons]
          exact Or.inr hmem
      · intro k hk
        simp only [List.map_cons, List.mem_cons] at hk
        rcases hk with hk | hk
        · exact hk ▸ le_max_left _ _
        · exact le_trans (hge k hk) (le_max_right _ _)

/-- A present key has a lookup value. -/
theorem lookup_eq_some_of_mem {α β : Type} [BEq α] [LawfulBEq α]
    {k : α} {l : List (α × β)} (h : k ∈ l.map Prod.fst) :
    ∃ v, l.lookup k = some v := by
  induction l with
  | nil => simp at h
  | cons e l ih =>
    by_cases he : k == e.1
    · exact ⟨e.2, by simp [List.lookup, he]⟩
    · simp only [List.map_cons, List.mem_cons] at h
      rcases h with h | h
      · exact absurd h (by simpa using he)
      · obtain ⟨v, hv⟩ := ih h
        exact ⟨v, by simp [List.lookup, he, hv]⟩

/-- Removing a present key shrinks the list by exactly one entry. -/
theorem length_removeKey {α β : Type} [BEq α] [LawfulBEq α]
    {k : α} {l : List (α × β)} (h : containsKey k l = true) :
    (removeKey k l).length + 1 = l.length := by
  induction l with
  | nil => simp [containsKey] at h
  | cons e l ih =>
    simp only [removeKey]
    by_cases he : e.1 == k
    · simp [he]
    · simp only [he, if_false]
      simp only [containsKey, List.any_cons, Bool.or_eq_true] at h
      rcases h with h | h
      · exact absurd h (by simpa using he)
      · simp [List.length_cons, ih h]

/-- With unique keys, removing a key removes it completely. -/
theorem containsKey_removeKey_self {α β : Type} [BEq α] [LawfulBEq α]
    {k : α} {l : List (α × β)} (h : (l.map Prod.fst).Nodup) :
    containsKey k (removeKey k l) = false := by
  induction l with
  | nil => simp [removeKey, containsKey]
  | cons e l ih =>
    simp only [List.map_cons, List.nodup_cons] at h
    obtain ⟨hnotin, hnd⟩ := h
    simp only [removeKey]
    by_cases he : e.1 == k
    · have hek : e.1 = k := by simpa using he
      rw [if_pos he]
      subst hek
      exact Bool.eq_false_iff.2 fun hc => hnotin (containsKey_iff_mem.1 hc)
    · rw [if_neg he]
      have hik := ih hnd
      simp only [containsKey, List.any_cons] at hik ⊢
      rw [Bool.or_eq_false_iff]
      exact ⟨Bool.eq_false_iff.2 he, hik⟩

/-- Removing one key leaves every other key untouched. -/
theorem containsKey_removeKey_of_ne {α β : Type} [BEq α] [LawfulBEq α]
    {k k2 : α} {l : List (α × β)} (h : k2 ≠ k) :
    containsKey k2 (removeKey k l) = containsKey k2 l := by
  induction l with
  | nil => simp [removeKey]
  | cons e l ih =>
    simp only [removeKey]
    by_cases he : e.1 == k
    · have hek : e.1 = k := by simpa using he
      simp only [he, if_true]
      have hne2 : (e.1 == k2) = false := by
        simp [hek]
        exact fun hc => h hc.symm
      simp [containsKey, List.any_cons, hne2]
    · rw [if_neg he]
      have hik := ih
      simp only [containsKey, List.any_cons] at hik ⊢
      rw [hik]

/-- C7: remove_id on an empty Touch Group is a no-op; on a non-empty group
    (with the unique keys a HashMap guarantees) it removes exactly the
    numerically largest tracking id together with its slot's tracker,
    shrinks the tracked-id count by exactly one, and keeps every other id
    tracked. -/
theorem remove_id_spec (g : TouchGroup)
    (hnd : (g.id_slot.map Prod.fst).Nodup) :
    (g.id_slot = [] → g.remove_id = g) ∧
    (g.id_slot ≠ [] →
      ∃ mx slot, maxKey g.id_slot = some mx ∧
        g.id_slot.lookup mx = some slot ∧
        g.remove_id = ⟨removeKey mx g.id_slot, removeKey slot g.slot_pos⟩ ∧
        g.remove_id.id_slot.length + 1 = g.id_slot.length ∧
        containsKey mx g.remove_id.id_slot = false ∧
        (∀ i ∈ g.id_slot.map Prod.fst, i ≠ mx →
          containsKey i g.remove_id.id_slot = true) ∧
        (∀ i ∈ g.id_slot.map Prod.fst, i ≤ mx)) := by
  constructor
  · intro h
    simp [TouchGroup.remove_id, h, maxKey]
  · intro h
    rcases maxKey_spec g.id_slot with ⟨hnil, _⟩ | ⟨mx, hmk, hmem, hge⟩
    · exact absurd hnil h
    obtain ⟨slot, hslot⟩ := lookup_eq_some_of_mem hmem
    have hrm : g.remove_id
        = ⟨removeKey mx g.id_slot, removeKey slot g.slot_pos⟩ := by
      simp [TouchGroup.remove_id, hmk, hslot]
    refine ⟨mx, slot, hmk, hslot, hrm, ?_, ?_, ?_, hge⟩
    · rw [hrm]
      exact length_removeKey (containsKey_iff_mem.2 hmem)
    · rw [hrm]
      exact containsKey_removeKey_self hnd
    · intro i hi hne
      rw [hrm]
      show containsKey i (removeKey mx g.id_slot) = true
      rw [containsKey_removeKey_of_ne hne]
      exact containsKey_iff_mem.2 hi

/-- A concrete two-finger group with ids 2 and 5 for the C7 witness. -/
def gEx : TouchGroup :=
  ⟨[(2, some 0), (5, some 1)],
   [(some 0, TouchPos.new), (some 1, TouchPos.new)]⟩

/-- C7 witness: with ids 2 and 5 bound, the release removes id 5 (the
    maximum) and its slot, the count drops from 2 to 1, and id 2 stays. -/
theorem remove_id_spec_witness :
    ∃ mx slot, maxKey gEx.id_slot = some mx ∧
      gEx.id_slot.lookup mx = some slot ∧
      gEx.remove_id = ⟨removeKey mx gEx.id_slot, removeKey slot gEx.slot_pos⟩ ∧
      gEx.remove_id.id_slot.length + 1 = gEx.id_slot.length ∧
      containsKey mx gEx.remove_id.id_slot = false ∧
      (∀ i ∈ gEx.id_slot.map Prod.fst, i ≠ mx →
        containsKey i gEx.remove_id.id_slot = true) ∧
      (∀ i ∈ gEx.id_slot.map Prod.fst, i ≤ mx) :=
  (remove_id_spec gEx (by decide)).2 (by decide)

/-- isqrt is squeezed between the squares that characterize the floor
    square root. -/
theorem isqrt_le_lt (n : Nat) :
    isqrt n * isqrt n ≤ n ∧ n < (isqrt n + 1) * (isqrt n + 1) := by
  induction n with
  | zero => exact ⟨Nat.le_refl 0, by decide⟩
  | succ n ih =>
    obtain ⟨h1, h2⟩ := ih
    simp only [isqrt]
    by_cases hc : (isqrt n + 1) * (isqrt n + 1) ≤ n + 1
    · rw [if_pos hc]
      exact ⟨hc, by nlinarith⟩
    · rw [if_neg hc]
      exact ⟨Nat.le_succ_of_le h1, Nat.lt_of_not_le hc⟩

/-- isqrt agrees with Nat.sqrt. -/
theorem isqrt_eq_sqrt (n : Nat) : isqrt n = Nat.sqrt n :=
  Nat.eq_sqrt.2 (isqrt_le_lt n)

/-- roundSqrt n is exactly the square root of n rounded to the nearest
    integer (the square root of a natural number is never exactly halfway
    between two integers, so rounding is unambiguous). -/
theorem roundSqrt_eq_round (n : Nat) :
    (roundSqrt n : ℤ) = round (Real.sqrt (n : ℝ)) := by
  obtain ⟨h1, h2⟩ := isqrt_le_lt n
  rw [round_eq]
  simp only [roundSqrt]
  by_cases hc : isqrt n * (isqrt n + 1) < n
  · rw [if_pos hc]
    symm
    rw [Int.floor_eq_iff]
    constructor
    · push_cast
      have hs : ((isqrt n : ℝ) + 1 / 2) ≤ Real.sqrt (n : ℝ) := by
        rw [Real.le_sqrt (by positivity) (by positivity)]
        have : (isqrt n * (isqrt n + 1) + 1 : ℝ) ≤ n := by
          exact_mod_cast hc
        nlinarith
      linarith
    · push_cast
      have hs : Real.sqrt (n : ℝ) < (isqrt n : ℝ) + 3 / 2 := by
        rw [Real.sqrt_lt' (by positivity)]
        have : (n : ℝ) < ((isqrt n : ℝ) + 1) * ((isqrt n : ℝ) + 1) := by
          exact_mod_cast h2
        nlinarith
      linarith
  · rw [if_neg hc]
    symm
    rw [Int.floor_eq_iff]
    constructor
    · push_cast
      have hs : (isqrt n : ℝ) ≤ Real.sqrt (n : ℝ) := by
        rw [Real.le_sqrt (by positivity) (by positivity)]
        have : ((isqrt n : ℝ) * (isqrt n : ℝ)) ≤ n := by exact_mod_cast h1
        nlinarith
      linarith
    · push_cast
      have hs : Real.sqrt (n : ℝ) < (isqrt n : ℝ) + 1 / 2 := by
        rw [Real.sqrt_lt' (by positivity)]
        have : (n : ℝ) ≤ (isqrt n : ℝ) * ((isqrt n : ℝ) + 1) := by
          have := Nat.le_of_not_lt hc
          exact_mod_cast this
        nlinarith
      linarith

/-- wrap32 is the identity on the i32 range. -/
theorem wrap32_eq_self (z : Int) (h1 : -(2 ^ 31) ≤ z) (h2 : z < 2 ^ 31) :
    wrap32 z = z := by
  unfold wrap32
  omega

/-- i32abs is the plain absolute value away from the minimum i32. -/
theorem i32abs_eq (z : Int) (h1 : -(2 ^ 31) < z) (h2 : z < 2 ^ 31) :
    i32abs z = |z| := by
  unfold i32abs
  exact wrap32_eq_self _ (le_trans (by norm_num) (abs_nonneg z))
    (abs_lt.2 ⟨h1, h2⟩)

/-- When the squared distance fits in i32, none of the wraps in on_slide
    fires and the test is the exact rounded-square-root comparison. -/
theorem on_slide_of_no_overflow (cx cy px py : Int) (m : Nat)
    (h : (cx - px) ^ 2 + (cy - py) ^ 2 ≤ 2 ^ 31 - 1) :
    on_slide ⟨(some cx, some cy), (some px, some py)⟩ m
      = decide (m ≤ roundSqrt ((cx - px).natAbs ^ 2 + (cy - py).natAbs ^ 2)) := by
  have hdx0 := sq_nonneg (cx - px)
  have hdy0 := sq_nonneg (cy - py)
  have hdx2 : (cx - px) ^ 2 ≤ 2 ^ 31 - 1 := by linarith
  have hdy2 : (cy - py) ^ 2 ≤ 2 ^ 31 - 1 := by linarith
  have hdxu : cx - px < 2 ^ 31 := by nlinarith
  have hdxl : -(2 ^ 31) < cx - px := by nlinarith
  have hdyu : cy - py < 2 ^ 31 := by nlinarith
  have hdyl : -(2 ^ 31) < cy - py := by nlinarith
  have htn : ((cx - px) * (cx - px) + (cy - py) * (cy - py)).toNat
      = (cx - px).natAbs ^ 2 + (cy - py).natAbs ^ 2 := by
    have hcast : (((cx - px).natAbs ^ 2 + (cy - py).natAbs ^ 2 : Nat) : ℤ)
        = (cx - px) * (cx - px) + (cy - py) * (cy - py) := by
      push_cast
      rw [sq_abs, sq_abs]
      ring
    rw [← hcast, Int.toNat_natCast]
  simp only [on_slide]
  rw [wrap32_eq_self (cx - px) hdxl.le hdxu,
    wrap32_eq_self (cy - py) hdyl.le hdyu,
    i32abs_eq (cx - px) hdxl hdxu, i32abs_eq (cy - py) hdyl hdyu,
    abs_mul_abs_self, abs_mul_abs_self,
    wrap32_eq_self ((cx - px) * (cx - px)) (by nlinarith) (by nlinarith),
    wrap32_eq_self ((cy - py) * (cy - py)) (by nlinarith) (by nlinarith),
    wrap32_eq_self ((cx - px) * (cx - px) + (cy - py) * (cy - py))
      (by nlinarith) (by nlinarith),
    if_neg (not_lt.2 (by nlinarith)), htn]

/-- Under the no-overflow side condition the code's slide test agrees with
    the spec's wording: both samples fully populated and the rounded
    Euclidean distance at least the threshold. -/
theorem on_slide_iff (p : TouchPos) (m : Nat) (h : no_overflow p) :
    on_slide p m = true ↔ slideSpec p m := by
  obtain ⟨⟨cx, cy⟩, ⟨px, py⟩⟩ := p
  cases cx with
  | none => simp [on_slide, slideSpec]
  | some cx => cases cy with
    | none => simp [on_slide, slideSpec]
    | some cy => cases px with
      | none => simp [on_slide, slideSpec]
      | some px => cases py with
        | none => simp [on_slide, slideSpec]
        | some py =>
          simp only [no_overflow] at h
          have hcast : (((cx - px).natAbs ^ 2 + (cy - py).natAbs ^ 2 : Nat) : ℝ)
              = ((cx - px : ℤ) : ℝ) ^ 2 + ((cy - py : ℤ) : ℝ) ^ 2 := by
            push_cast [Int.cast_natAbs, sq_abs]
            ring
          rw [on_slide_of_no_overflow cx cy px py m h]
          simp only [slideSpec, decide_eq_true_eq, Prod.mk.injEq,
            Option.some.injEq]
          constructor
          · intro hle
            refine ⟨cx, cy, px, py, ⟨rfl, rfl⟩, ⟨rfl, rfl⟩, ?_⟩
            rw [← hcast, ← roundSqrt_eq_round]
            exact_mod_cast hle
          · rintro ⟨cx2, cy2, px2, py2, ⟨hc1, hc2⟩, ⟨hp1, hp2⟩, hle⟩
            subst hc1; subst hc2; subst hp1; subst hp2
            rw [← hcast, ← roundSqrt_eq_round] at hle
            exact_mod_cast hle

/-- C1 (amended): for snapshots whose tracked slots keep the squared i32
    distance inside i32 (no wrap in the distance arithmetic), the
    classifier yields Slide exactly when some tracked slot has both samples
    fully populated with rounded Euclidean distance at least the threshold,
    None exactly when no slot slides and the group tracks no slots, and
    Click otherwise; in particular one slot with prev_pos = (0,0) and
    cur_pos = (3,4) at threshold 10 gives Click, and cur_pos = (6,8) gives
    Slide. Without the no-overflow restriction the equivalence fails: the
    i32 squares wrap (release build) and the NaN square root classifies
    Click where the rounded distance is far above the threshold. -/
theorem classify_spec (g : TouchGroup) (m : Nat)
    (hno : ∀ e ∈ g.slot_pos, no_overflow e.2) :
    (classify g m = .Slide ↔ ∃ e ∈ g.slot_pos, slideSpec e.2 m) ∧
    (classify g m = .None ↔
      (¬ ∃ e ∈ g.slot_pos, slideSpec e.2 m) ∧ g.slot_pos = []) ∧
    (classify g m = .Click ↔
      (¬ ∃ e ∈ g.slot_pos, slideSpec e.2 m) ∧ g.slot_pos ≠ []) ∧
    classify ⟨[(1, some 0)],
      [(some 0, ⟨(some 3, some 4), (some 0, some 0)⟩)]⟩ 10 = .Click ∧
    classify ⟨[(1, some 0)],
      [(some 0, ⟨(some 6, some 8), (some 0, some 0)⟩)]⟩ 10 = .Slide := by
  have hany : (g.slot_pos.any fun e => on_slide e.2 m) = true
      ↔ ∃ e ∈ g.slot_pos, slideSpec e.2 m := by
    simp only [List.any_eq_true]
    constructor
    · rintro ⟨e, he, hs⟩
      exact ⟨e, he, (on_slide_iff e.2 m (hno e he)).1 hs⟩
    · rintro ⟨e, he, hs⟩
      exact ⟨e, he, (on_slide_iff e.2 m (hno e he)).2 hs⟩
  by_cases hb : (g.slot_pos.any fun e => on_slide e.2 m) = true
  · have hcl : classify g m = .Slide := by simp [classify, hb]
    refine ⟨?_, ?_, ?_, by decide, by decide⟩
    · exact iff_of_true hcl (hany.1 hb)
    · exact iff_of_false (by simp [hcl]) (fun h => h.1 (hany.1 hb))
    · exact iff_of_false (by simp [hcl]) (fun h => h.1 (hany.1 hb))
  · have hnex : ¬ ∃ e ∈ g.slot_pos, slideSpec e.2 m := fun h => hb (hany.2 h)
    by_cases he : g.slot_pos.isEmpty
    · have hemp : g.slot_pos = [] := List.isEmpty_iff.1 he
      have hcl : classify g m = .None := by simp [classify, hb, he]
      refine ⟨?_, ?_, ?_, by decide, by decide⟩
      · exact iff_of_false (by simp [hcl]) hnex
      · exact iff_of_true hcl ⟨hnex, hemp⟩
      · exact iff_of_false (by simp [hcl]) (fun h => h.2 hemp)
    · have hne : g.slot_pos ≠ [] := fun h => he (by simp [h])
      have hcl : classify g m = .Click := by simp [classify, hb, he]
      refine ⟨?_, ?_, ?_, by decide, by decide⟩
      · exact iff_of_false (by simp [hcl]) hnex
      · exact iff_of_false (by simp [hcl]) (fun h => hne h.2)
      · exact iff_of_true hcl ⟨hnex, hne⟩

/-- C1 witness: the single-slot group with prev_pos (0,0) and cur_pos (3,4)
    satisfies the no-overflow side condition and classifies as Click at
    threshold 10. -/
theorem classify_spec_witness :
    classify ⟨[(1, some 0)],
      [(some 0, ⟨(some 3, some 4), (some 0, some 0)⟩)]⟩ 10 = .Click :=
  (classify_spec ⟨[(1, some 0)],
      [(some 0, ⟨(some 3, some 4), (some 0, some 0)⟩)]⟩ 10
    (by
      intro e he
      simp only [List.mem_singleton] at he
      subst he
      simp only [no_overflow]
      norm_num)).2.2.2.1

/-- C1 counterexample: with a 50000-pixel x delta - valid i32 coordinates -
    the spec's rounded Euclidean distance is 50000, far above threshold 5,
    yet the i32 square wraps negative, the f64 square root is NaN, the cast
    yields 0, and the program classifies Click instead of Slide. -/
theorem classify_overflow_counterexample :
    classify ⟨[(1, some 0)],
      [(some 0, ⟨(some 50000, some 0), (some 0, some 0)⟩)]⟩ 5 = .Click ∧
    slideSpec (⟨(some 50000, some 0), (some 0, some 0)⟩ : TouchPos) 5 := by
  constructor
  · decide
  · refine ⟨50000, 0, 0, 0, rfl, rfl, ?_⟩
    have h1 : ((50000 - 0 : ℤ) : ℝ) ^ 2 + ((0 - 0 : ℤ) : ℝ) ^ 2
        = ((50000 : ℤ) : ℝ) ^ 2 := by norm_num
    rw [h1, Real.sqrt_sq (by norm_num), round_intCast]
    norm_num
